import Mathlib

/-!
Verification of the JSONPath core evaluator (`src/jsonpath/core.py`).

The evaluator is shallowly embedded as a fueled, eager interpreter:

* Python JSON data (`None`/`bool`/`int`/`float`/`str`/`list`/`dict`) becomes
  the inductive `JSON`; dicts are insertion-ordered key/value lists.
* Exceptions become `Except FindErr`: `FindErr.notFound` is
  `JSONPathFindError`, `FindErr.lookupError` is the `LookupError` raised by
  an unbound `ContextVar`, `FindErr.typeError` / `FindErr.valueError` are the
  host `TypeError` / `ValueError` (mixed-type ordering, zero slice step).
  A returned `Except.error` models an exception propagating out of the
  corresponding Python call; `Except.ok` models a normal return.
* The dynamically scoped context variables `var_root`, `var_parent`,
  `var_self` become an explicit read-only `Context` record threaded through
  the evaluation; `temporary_set` is modelled by passing an updated record
  into the scoped call.  The `var_finding` flag is modelled structurally:
  `dfs_find`/`wrapped_find` always run in the `finding = True` discipline,
  and every place the source resets `finding` to `False` before a nested
  `find` calls `find_iter_ctx` (which restarts from the chain's begin).
* Generators are modelled eagerly: `find_iter` fully consumed equals `find`.
* `fuel` only bounds recursion depth; every theorem quantifies over it or
  picks it large enough that it is never exhausted (`FindErr.outOfFuel`).
-/

namespace JsonPathCore

/-- A Python JSON value.  `float` is modelled as a rational (the claims only
depend on equality, ordering and truthiness of floats); `obj` keeps the
dict's insertion order. -/
inductive JSON where
  | null
  | bool (b : Bool)
  | int (n : Int)
  | float (q : Rat)
  | str (s : String)
  | arr (xs : List JSON)
  | obj (kvs : List (String × JSON))

/-- Error taxonomy of the embedding (see module docstring). -/
inductive FindErr where
  | notFound
  | lookupError
  | typeError
  | valueError
  | outOfFuel
deriving DecidableEq, Repr

/-- Python truthiness (`bool(x)`): `False`, `None`, `0`, `0.0`, `""`, `[]`,
`{}` are falsy, everything else truthy. -/
def truthy : JSON → Bool
  | .null => false
  | .bool b => b
  | .int n => !(n == 0)
  | .float q => !(q == 0)
  | .str s => !(s == "")
  | .arr xs => !xs.isEmpty
  | .obj kvs => !kvs.isEmpty

/-- The numeric value of a JSON value for Python's cross-type numeric
comparisons; Python `bool` is a subclass of `int` (`True == 1`). -/
def asNum : JSON → Option Rat
  | .bool b => some (if b then 1 else 0)
  | .int n => some (n : Rat)
  | .float q => some q
  | _ => none

/-- First-match lookup in a dict's key/value list (`element[name]`). -/
def dictLookup : List (String × JSON) → String → Option JSON
  | [], _ => Option.none
  | (k, v) :: rest, s => if k = s then some v else dictLookup rest s

mutual

/-- Python `==` on JSON data: numeric values compare numerically across
`bool`/`int`/`float`; strings, lists and dicts compare structurally (dicts
up to key order); distinct non-numeric types are unequal. -/
def pyEq : JSON → JSON → Bool
  | .null, .null => true
  | .str s, .str t => s == t
  | .arr xs, .arr ys => pyEqList xs ys
  | .obj xs, .obj ys => pyEqObj xs ys && pyEqObj ys xs
  | a, b =>
    match asNum a, asNum b with
    | some x, some y => x == y
    | _, _ => false
termination_by a b => sizeOf a + sizeOf b

/-- Element-wise Python `==` on lists. -/
def pyEqList : List JSON → List JSON → Bool
  | [], [] => true
  | x :: xs, y :: ys => pyEq x y && pyEqList xs ys
  | _, _ => false
termination_by xs ys => sizeOf xs + sizeOf ys

/-- The membership-and-equality half of one dict-equality step: look the key
up in the other dict and compare values with Python `==`. -/
def pyEqLookupEq : List (String × JSON) → String → JSON → Bool
  | [], _, _ => false
  | (k, w) :: rest, s, v => if k = s then pyEq v w else pyEqLookupEq rest s v
termination_by ys _ v => sizeOf ys + sizeOf v

/-- One inclusion of Python dict equality: every key of the first dict is
present in the second with an equal value. -/
def pyEqObj : List (String × JSON) → List (String × JSON) → Bool
  | [], _ => true
  | (k, v) :: rest, ys => pyEqLookupEq ys k v && pyEqObj rest ys
termination_by xs ys => sizeOf xs + sizeOf ys

end

mutual

/-- Python three-way ordering on JSON data: defined for numeric pairs,
string pairs and list pairs (lexicographic, stepping over `==`-equal
elements); every other pair raises `TypeError`. -/
def pyCmpOrd : JSON → JSON → Except FindErr Ordering
  | .str s, .str t => .ok (compare s t)
  | .arr xs, .arr ys => pyCmpList xs ys
  | a, b =>
    match asNum a, asNum b with
    | some x, some y =>
      .ok (if x < y then Ordering.lt else if y < x then Ordering.gt else Ordering.eq)
    | _, _ => .error .typeError
termination_by a b => sizeOf a + sizeOf b

/-- Python lexicographic list ordering. -/
def pyCmpList : List JSON → List JSON → Except FindErr Ordering
  | [], [] => .ok Ordering.eq
  | [], _ :: _ => .ok Ordering.lt
  | _ :: _, [] => .ok Ordering.gt
  | x :: xs, y :: ys => if pyEq x y then pyCmpList xs ys else pyCmpOrd x y
termination_by xs ys => sizeOf xs + sizeOf ys

end

/-- Substring test (`needle in haystack` for Python strings). -/
def strContains (s t : String) : Bool :=
  t == "" || (s.splitOn t).length ≥ 2

/-- Python `needle in container`: substring test for strings, `==`-element
test for lists, key test for dicts (unhashable needles raise `TypeError`);
`in` on any other container raises `TypeError`. -/
def pyContains (container needle : JSON) : Except FindErr Bool :=
  match container with
  | .str s =>
    match needle with
    | .str t => .ok (strContains s t)
    | _ => .error .typeError
  | .arr xs => .ok (xs.any (fun x => pyEq x needle))
  | .obj kvs =>
    match needle with
    | .arr _ => .error .typeError
    | .obj _ => .error .typeError
    | _ => .ok (kvs.any (fun kv => pyEq (.str kv.1) needle))
  | _ => .error .typeError

/-- Python list indexing `xs[i]` with negative-index support; `none` models
`IndexError`. -/
def pyIndex (xs : List JSON) (i : Int) : Option JSON :=
  if 0 ≤ i then xs.get? i.toNat
  else if 0 ≤ i + xs.length then xs.get? (i + xs.length).toNat
  else Option.none

/-- CPython's slice-bound normalisation (`PySlice_AdjustIndices`) for a list
of length `n`; `neg` is whether the step is negative. -/
def sliceAdjust (n : Nat) (neg : Bool) (i : Int) : Int :=
  if i < 0 then max (i + n) (if neg then -1 else 0)
  else min i (if neg then (n : Int) - 1 else (n : Int))

/-- The index sequence selected by `xs[start:stop:step]` (`step ≠ 0`). -/
def pySliceIndices (n : Nat) (start stop step : Int) : List Int :=
  if 0 < step then
    let i := sliceAdjust n false start
    let j := sliceAdjust n false stop
    let cnt := ((j - i + step - 1).ediv step).toNat
    (List.range cnt).map (fun t => i + step * t)
  else
    let i := sliceAdjust n true start
    let j := sliceAdjust n true stop
    let cnt := ((i - j + (-step) - 1).ediv (-step)).toNat
    (List.range cnt).map (fun t => i + step * t)

/-- Python list slicing `xs[start:stop:step]`; a zero step raises
`ValueError`. -/
def pySlice (xs : List JSON) (start stop step : Int) : Except FindErr (List JSON) :=
  if step = 0 then .error .valueError
  else .ok ((pySliceIndices xs.length start stop step).filterMap
    (fun i => xs.get? i.toNat))

/-- `isinstance(x, int)` on a JSON value, as Python sees it: both `int` and
`bool` values pass the check (bools count as the integers 0 / 1). -/
def pyAsIndex : JSON → Option Int
  | .int n => some n
  | .bool b => some (if b then 1 else 0)
  | _ => Option.none

/-- The comparison operator of a `Compare` node
(`LessThan`/…/`NotEqual`/`And`/`Or`). -/
inductive CmpOp where
  | lessThan
  | lessEqual
  | equal
  | greaterEqual
  | greaterThan
  | notEqual
  | and
  | or
deriving DecidableEq, Repr

mutual

/-- One expression node (one `Expr` subclass instance with its payload).
Nested sub-expressions (a predicate's inner expression, a slice bound, a
comparison target, …) are stored as the whole `Chain` they belong to; the
node the Python object actually holds is that chain's tail (`lastNode`). -/
inductive Node where
  | value (v : JSON)
  | root
  | name (s : Option String)
  | array (idx : ArrIdx)
  | predicate (inner : Chain)
  | brace (inner : Chain)
  | search (inner : Chain)
  | self
  | compare (op : CmpOp) (target : Target)
  | key
  | contains (inner : Chain) (target : Target)
  | not (inner : Chain)

/-- The payload of an `Array` node: `None` (all items), an int index, or a
`Slice(start, stop, step)`. -/
inductive ArrIdx where
  | all
  | idx (i : Int)
  | slice (start stop step : Bound)

/-- One bound of a `Slice`: absent, a literal integer, or an expression. -/
inductive Bound where
  | none
  | lit (i : Int)
  | expr (e : Chain)

/-- The target of a `Compare` or `Contains`: a literal or an expression. -/
inductive Target where
  | lit (v : JSON)
  | expr (e : Chain)

/-- A chain of nodes linked by `ref_right`, listed from its begin to its
tail.  `Chain.last n` is a lone (never chained) node: its `ref_begin` is
`None`.  Every node of a `Chain.cons` chain has a non-`None` `ref_begin`. -/
inductive Chain where
  | last (n : Node)
  | cons (n : Node) (rest : Chain)

end

/-- The key of the `(key, value)` pair held by `var_self`: the int index for
array iteration, the field name for dict iteration. -/
inductive SelfKey where
  | idx (i : Nat)
  | key (s : String)
deriving DecidableEq, Repr

/-- The JSON value the `Key()` function returns for a `SelfKey`. -/
def SelfKey.toJSON : SelfKey → JSON
  | .idx i => .int i
  | .key s => .str s

/-- The ambient evaluation context: the contextvars `var_root`, `var_parent`
and `var_self` (`Option.none` models an unbound variable, whose `.get()`
raises `LookupError`). -/
structure Context where
  root : Option JSON
  parent : Option JSON
  selfVal : Option (SelfKey × JSON)

/-- The context of an outer `find`/`find_iter`/`find_first` call: no
context variable is bound yet. -/
def emptyCtx : Context := ⟨Option.none, Option.none, Option.none⟩

/-- Whether the nodes of this chain are chained (`ref_begin` is not `None`):
true exactly for chains of length at least two. -/
def isChained : Chain → Bool
  | .last _ => false
  | .cons _ _ => true

/-- The head of a chain (its `begin`). -/
def chainHead : Chain → Node
  | .last n => n
  | .cons n _ => n

/-- The tail of a chain: the node object the builder stores into an
enclosing node's payload (`Expr.chain` returns its argument). -/
def lastNode : Chain → Node
  | .last n => n
  | .cons _ rest => lastNode rest

/-- `isinstance(·, Predicate)` on the stored node. -/
def isPredicateNode : Node → Bool
  | .predicate _ => true
  | _ => false

/-- Python truthiness of `rv and rv[0]` for a result list `rv`: the list is
non-empty and its first element is truthy. -/
def headTruthy : List JSON → Bool
  | [] => false
  | r :: _ => truthy r

mutual

/-- The `find` wrapper `ExprMeta` installs around every node's own `find`
(`core.py` lines 140–152), in the state where `var_finding` is true: run the
node's local match; on `JSONPathFindError`, re-raise if the node is
unchained (`ref_begin is None`), otherwise return `[]`. -/
def wrapped_find (fuel : Nat) (n : Node) (chained : Bool) (ctx : Context)
    (elem : JSON) : Except FindErr (List JSON) :=
  match actual_find fuel n ctx elem with
  | .ok r => .ok r
  | .error e =>
    if e = .notFound then
      if chained then .ok [] else .error .notFound
    else .error e
termination_by (fuel, 1, 0)

/-- `_dfs_find` (`core.py` lines 101–122): for each input element run the
chain head's wrapped `find` (a `JSONPathFindError` skips the element), then
either yield the found elements (no next expr) or recurse into the rest of
the chain with `var_parent` temporarily bound to the element. -/
def dfs_find (fuel : Nat) (c : Chain) (chained : Bool) (ctx : Context)
    (elems : List JSON) : Except FindErr (List JSON) :=
  match elems with
  | [] => .ok []
  | elem :: rest =>
    match wrapped_find fuel (chainHead c) chained ctx elem with
    | .error e =>
      if e = .notFound then dfs_find fuel c chained ctx rest else .error e
    | .ok found =>
      if found.isEmpty then dfs_find fuel c chained ctx rest
      else
        match c with
        | .last _ =>
          match dfs_find fuel c chained ctx rest with
          | .error e => .error e
          | .ok more => .ok (found ++ more)
        | .cons _ nextC =>
          if fuel = 0 then .error .outOfFuel
          else
            match dfs_find (fuel - 1) nextC chained
                { ctx with parent := some elem } found with
            | .error e => .error e
            | .ok here =>
              match dfs_find fuel c chained ctx rest with
              | .error e => .error e
              | .ok more => .ok (here ++ more)
termination_by (fuel, 2, elems.length)

/-- `Expr.find_iter` (`core.py` lines 254–282) with the ambient context made
explicit: set `var_root` to the element if it is unbound, then run
`_dfs_find` from the chain's begin with `var_finding` true.  Every nested
find in the source (a `find` under `temporary_set(var_finding, False)`)
enters here. -/
def find_iter_ctx (fuel : Nat) (c : Chain) (ctx : Context) (elem : JSON) :
    Except FindErr (List JSON) :=
  let ctx' := if ctx.root.isNone then { ctx with root := some elem } else ctx
  dfs_find fuel c (isChained c) ctx' [elem]
termination_by (fuel, 3, 0)

/-- `Compare.get_target_value` (`core.py` lines 843–857): a literal target
is used directly; an expression target is evaluated by a nested find against
the value in `var_self` (raising `LookupError` if `var_self` is unbound) and
must yield at least one result, else `JSONPathFindError`. -/
def get_target_value (fuel : Nat) (t : Target) (ctx : Context) :
    Except FindErr JSON :=
  match t with
  | .lit v => .ok v
  | .expr c =>
    match ctx.selfVal with
    | Option.none => .error .lookupError
    | some sv =>
      match find_iter_ctx fuel c ctx sv.2 with
      | .error e => .error e
      | .ok [] => .error .notFound
      | .ok (x :: _) => .ok x
termination_by (fuel, 4, 0)

/-- `Slice._ensure_int_or_none` (`core.py` lines 648–657): a literal bound
(or `None`) passes through; an expression bound is evaluated by a nested
find against `var_parent.get()` (`LookupError` if unbound), and its first
result must satisfy `isinstance(·, int)` — which in Python also accepts
booleans — else `JSONPathFindError`. -/
def ensure_int_or_none (fuel : Nat) (b : Bound) (ctx : Context) :
    Except FindErr (Option Int) :=
  match b with
  | .none => .ok Option.none
  | .lit i => .ok (some i)
  | .expr c =>
    match ctx.parent with
    | Option.none => .error .lookupError
    | some p =>
      match find_iter_ctx fuel c ctx p with
      | .error e => .error e
      | .ok [] => .error .notFound
      | .ok (x :: _) =>
        match pyAsIndex x with
        | some i => .ok (some i)
        | Option.none => .error .notFound
termination_by (fuel, 4, 0)

/-- The loop of `Predicate.find` over an array's `enumerate(element)` pairs
(`core.py` lines 585–597): bind `var_self` to the `(index, item)` pair, run
the inner expression as a nested find on the item, and keep the item exactly
when `rv and rv[0]` is truthy. -/
def predFilterArr (fuel : Nat) (inner : Chain) (ctx : Context) (i : Nat) :
    List JSON → Except FindErr (List JSON)
  | [] => .ok []
  | v :: rest =>
    match find_iter_ctx fuel inner { ctx with selfVal := some (.idx i, v) } v with
    | .error e => .error e
    | .ok rv =>
      match predFilterArr fuel inner ctx (i + 1) rest with
      | .error e => .error e
      | .ok more => .ok (if headTruthy rv then v :: more else more)
termination_by xs => (fuel, 4, xs.length)

/-- The loop of `Predicate.find` over a dict's `element.items()` pairs. -/
def predFilterObj (fuel : Nat) (inner : Chain) (ctx : Context) :
    List (String × JSON) → Except FindErr (List JSON)
  | [] => .ok []
  | (k, v) :: rest =>
    match find_iter_ctx fuel inner { ctx with selfVal := some (.key k, v) } v with
    | .error e => .error e
    | .ok rv =>
      match predFilterObj fuel inner ctx rest with
      | .error e => .error e
      | .ok more => .ok (if headTruthy rv then v :: more else more)
termination_by kvs => (fuel, 4, kvs.length)

/-- `_recursive_find` (`core.py` lines 733–749): visit the element first —
the stored node's wrapped `find` under the prevailing `finding = True`
discipline, with `JSONPathFindError` ignored — then, with `var_parent`
bound to the element, recurse into array items / dict values in order. -/
def recursive_find (fuel : Nat) (c : Chain) (ctx : Context) (elem : JSON) :
    Except FindErr (List JSON) :=
  let visited : Except FindErr (List JSON) :=
    match wrapped_find fuel (lastNode c) (isChained c) ctx elem with
    | .ok rv => .ok rv
    | .error e => if e = .notFound then .ok [] else .error e
  match visited with
  | .error e => .error e
  | .ok rv =>
    match elem with
    | .arr xs =>
      match recursiveFindList fuel c { ctx with parent := some elem } xs with
      | .error e => .error e
      | .ok more => .ok (rv ++ more)
    | .obj kvs =>
      match recursiveFindObj fuel c { ctx with parent := some elem } kvs with
      | .error e => .error e
      | .ok more => .ok (rv ++ more)
    | _ => .ok rv
termination_by (fuel, 5, 0)

/-- The loop of `_recursive_find` over an array's items. -/
def recursiveFindList (fuel : Nat) (c : Chain) (ctx : Context) :
    List JSON → Except FindErr (List JSON)
  | [] => .ok []
  | x :: rest =>
    if fuel = 0 then .error .outOfFuel
    else
      match recursive_find (fuel - 1) c ctx x with
      | .error e => .error e
      | .ok here =>
        match recursiveFindList fuel c ctx rest with
        | .error e => .error e
        | .ok more => .ok (here ++ more)
termination_by xs => (fuel, 4, xs.length)

/-- The loop of `_recursive_find` over a dict's values. -/
def recursiveFindObj (fuel : Nat) (c : Chain) (ctx : Context) :
    List (String × JSON) → Except FindErr (List JSON)
  | [] => .ok []
  | (_, v) :: rest =>
    if fuel = 0 then .error .outOfFuel
    else
      match recursive_find (fuel - 1) c ctx v with
      | .error e => .error e
      | .ok here =>
        match recursiveFindObj fuel c ctx rest with
        | .error e => .error e
        | .ok more => .ok (here ++ more)
termination_by kvs => (fuel, 4, kvs.length)

/-- The local `find` of each node class (the `actual_find` captured by
`ExprMeta`), dispatching on the node variant.  Each branch is a direct
translation of the corresponding `find` method in `core.py`. -/
def actual_find (fuel : Nat) (n : Node) (ctx : Context) (elem : JSON) :
    Except FindErr (List JSON) :=
  if fuel = 0 then .error .outOfFuel
  else
    match n with
    | .value v => .ok [v]
    | .root =>
      match ctx.root with
      | some r => .ok [r]
      | Option.none => .error .lookupError
    | .name Option.none =>
      match elem with
      | .obj kvs => .ok (kvs.map Prod.snd)
      | _ => .error .notFound
    | .name (some s) =>
      match elem with
      | .obj kvs =>
        match dictLookup kvs s with
        | some v => .ok [v]
        | Option.none => .error .notFound
      | _ => .error .notFound
    | .array .all =>
      match elem with
      | .arr xs => .ok xs
      | _ => .error .notFound
    | .array (.idx i) =>
      match elem with
      | .arr xs =>
        match pyIndex xs i with
        | some v => .ok [v]
        | Option.none => .error .notFound
      | _ => .error .notFound
    | .array (.slice b1 b2 b3) =>
      match elem with
      | .arr xs =>
        match ensure_int_or_none (fuel - 1) b1 ctx with
        | .error e => .error e
        | .ok s =>
          match ensure_int_or_none (fuel - 1) b2 ctx with
          | .error e => .error e
          | .ok e2 =>
            match ensure_int_or_none (fuel - 1) b3 ctx with
            | .error e => .error e
            | .ok st =>
              pySlice xs (s.getD 0) (e2.getD (xs.length : Int)) (st.getD 1)
      | _ => .error .notFound
    | .predicate inner =>
      match elem with
      | .arr xs => predFilterArr (fuel - 1) inner ctx 0 xs
      | .obj kvs => predFilterObj (fuel - 1) inner ctx kvs
      | _ => .error .notFound
    | .brace inner =>
      match find_iter_ctx (fuel - 1) inner ctx elem with
      | .error e => .error e
      | .ok rv => .ok [.arr rv]
    | .search inner =>
      if isPredicateNode (lastNode inner) then
        recursive_find (fuel - 1) inner ctx (.arr [elem])
      else
        recursive_find (fuel - 1) inner ctx elem
    | .self =>
      match ctx.selfVal with
      | some sv => .ok [sv.2]
      | Option.none => .ok [elem]
    | .key =>
      match ctx.selfVal with
      | some sv => .ok [sv.1.toJSON]
      | Option.none => .error .lookupError
    | .compare .and t =>
      if truthy elem then
        match get_target_value (fuel - 1) t ctx with
        | .error e => .error e
        | .ok tv => .ok [tv]
      else .ok [elem]
    | .compare .or t =>
      if truthy elem then .ok [elem]
      else
        match get_target_value (fuel - 1) t ctx with
        | .error e => .error e
        | .ok tv => .ok [tv]
    | .compare .equal t =>
      match get_target_value (fuel - 1) t ctx with
      | .error e => .error e
      | .ok tv => .ok [.bool (pyEq elem tv)]
    | .compare .notEqual t =>
      match get_target_value (fuel - 1) t ctx with
      | .error e => .error e
      | .ok tv => .ok [.bool (!pyEq elem tv)]
    | .compare .lessThan t =>
      match get_target_value (fuel - 1) t ctx with
      | .error e => .error e
      | .ok tv =>
        match pyCmpOrd elem tv with
        | .error e => .error e
        | .ok o => .ok [.bool (o == Ordering.lt)]
    | .compare .lessEqual t =>
      match get_target_value (fuel - 1) t ctx with
      | .error e => .error e
      | .ok tv =>
        match pyCmpOrd elem tv with
        | .error e => .error e
        | .ok o => .ok [.bool (o != Ordering.gt)]
    | .compare .greaterThan t =>
      match get_target_value (fuel - 1) t ctx with
      | .error e => .error e
      | .ok tv =>
        match pyCmpOrd elem tv with
        | .error e => .error e
        | .ok o => .ok [.bool (o == Ordering.gt)]
    | .compare .greaterEqual t =>
      match get_target_value (fuel - 1) t ctx with
      | .error e => .error e
      | .ok tv =>
        match pyCmpOrd elem tv with
        | .error e => .error e
        | .ok o => .ok [.bool (o != Ordering.lt)]
    | .contains inner t =>
      match wrapped_find (fuel - 1) (lastNode inner) (isChained inner) ctx elem with
      | .error e => .error e
      | .ok [] => .ok []
      | .ok (containerVal :: _) =>
        match t with
        | .lit v =>
          match pyContains containerVal v with
          | .error e => .error e
          | .ok b => .ok [.bool b]
        | .expr tc =>
          match find_iter_ctx (fuel - 1) tc ctx elem with
          | .error e => .error e
          | .ok [] => .ok []
          | .ok (needle :: _) =>
            match pyContains containerVal needle with
            | .error e => .error e
            | .ok b => .ok [.bool b]
    | .not inner =>
      match find_iter_ctx (fuel - 1) inner ctx elem with
      | .error e => .error e
      | .ok rv => .ok (rv.map (fun v => JSON.bool (!truthy v)))
termination_by (fuel, 0, 0)

end

/-- `Expr.find`: an outer find — `list(self.find_iter(element))` — starting
from an empty ambient context. -/
def find (fuel : Nat) (c : Chain) (doc : JSON) : Except FindErr (List JSON) :=
  find_iter_ctx fuel c emptyCtx doc

/-- `Expr.find_iter` from the host, modelled eagerly: the fully consumed
generator yields exactly the list `find` returns. -/
def find_iter (fuel : Nat) (c : Chain) (doc : JSON) : Except FindErr (List JSON) :=
  find_iter_ctx fuel c emptyCtx doc

/-- `Expr.find_first` (`core.py` lines 236–252): the first element yielded
by `find_iter`, or `JSONPathFindError` when there is none. -/
def find_first (fuel : Nat) (c : Chain) (doc : JSON) : Except FindErr JSON :=
  match find_iter_ctx fuel c emptyCtx doc with
  | .error e => .error e
  | .ok [] => .error .notFound
  | .ok (x :: _) => .ok x


/-! ### The chain-link fields and `Expr.chain` (for C9)

`Expr.chain` mutates the link fields of existing node objects, so it is
modelled separately from the evaluation `Chain`: nodes are identified by
`Nat` ids and a store maps each id to its three link fields. -/

/-- The chain link fields set by `Expr.__init__` (`core.py` lines 186–189):
`left` (strong ref to the predecessor), `ref_right` (weakref to the
successor), `ref_begin` (weakref to the chain's first node).  A live
weakref is modelled by the id of its referent. -/
structure NodeLinks where
  left : Option Nat
  ref_right : Option Nat
  ref_begin : Option Nat
deriving DecidableEq, Repr

/-- The link state of every node, by id. -/
def LinkStore := Nat → NodeLinks

/-- A freshly constructed node: all three links are `None`. -/
def freshLinks : NodeLinks := ⟨Option.none, Option.none, Option.none⟩

/-- Update one node's links in the store. -/
def setLinks (s : LinkStore) (i : Nat) (f : NodeLinks → NodeLinks) : LinkStore :=
  fun j => if j = i then f (s j) else s j

/-- `Expr.chain` (`core.py` lines 308–329), statement by statement: install
`self` as its own begin if it has none, copy `self.ref_begin` into
`next_expr.ref_begin`, record `self` as `next_expr.left`, point
`self.ref_right` at `next_expr`, and return `next_expr`. -/
def chain (s : LinkStore) (a b : Nat) : LinkStore × Nat :=
  let s1 := if (s a).ref_begin = Option.none
    then setLinks s a (fun n => { n with ref_begin := some a }) else s
  let s2 := setLinks s1 b (fun n => { n with ref_begin := (s1 a).ref_begin })
  let s3 := setLinks s2 b (fun n => { n with left := some a })
  (setLinks s3 a (fun n => { n with ref_right := some b }), b)

/-- `Expr.get_begin` (`core.py` lines 284–297): a node with no `ref_begin`
is its own begin, otherwise the weakref is dereferenced. -/
def get_begin (s : LinkStore) (i : Nat) : Nat :=
  match (s i).ref_begin with
  | Option.none => i
  | some j => j

/-- `Expr.get_next` (`core.py` lines 299–306). -/
def get_next (s : LinkStore) (i : Nat) : Option Nat :=
  (s i).ref_right


/-- Whether a JSON value is an array. -/
def isArrVal : JSON → Bool
  | .arr _ => true
  | _ => false

/-- Whether a JSON value is an object. -/
def isObjVal : JSON → Bool
  | .obj _ => true
  | _ => false


/-- Whether `Predicate.find` keeps a pair `(k, v)`: the nested find of the
inner expression on `v`, run with `var_self` bound to the pair, returned a
list `rv` with `rv and rv[0]` truthy. -/
def keepTest (fuel : Nat) (inner : Chain) (ctx : Context) (k : SelfKey)
    (v : JSON) : Bool :=
  match find_iter_ctx fuel inner { ctx with selfVal := some (k, v) } v with
  | .ok rv => headTruthy rv
  | .error _ => false

/-- `enumerate(element)` pairs of an array, starting at index `i`. -/
def enumFrom (i : Nat) : List JSON → List (Nat × JSON)
  | [] => []
  | x :: xs => (i, x) :: enumFrom (i + 1) xs

/-- The driver never lets `JSONPathFindError` escape: `_dfs_find` catches it
around every per-element wrapped `find` and skips the element. -/
theorem dfs_find_ne_notFound : ∀ (fuel : Nat) (c : Chain) (ch : Bool)
    (ctx : Context) (elems : List JSON),
    dfs_find fuel c ch ctx elems ≠ .error .notFound := by
  intro fuel
  induction fuel with
  | zero =>
    intro c ch ctx elems
    induction elems with
    | nil => simp [dfs_find]
    | cons e rest ih =>
      rw [dfs_find]
      repeat' split
      all_goals simp_all
  | succ f ihf =>
    intro c ch ctx elems
    induction elems with
    | nil => simp [dfs_find]
    | cons e rest ih =>
      rw [dfs_find]
      repeat' split
      all_goals (try simp_all)
      all_goals (intro h; subst h; cases ch <;> simp_all)

/-- C1: for every expression chain and JSON document, the outer `find` and
`find_iter` (and any `find_iter` with an ambient context, i.e. any
evaluation entered through the driver) never raise `FindError::NotFound` to
the caller: `_dfs_find` catches every `JSONPathFindError` raised by a local
match — including the one re-raised by a lone, unchained node's wrapper —
and skips that input, so an evaluation in which every branch contributes
nothing returns the empty sequence. -/
theorem find_never_raises_notFound (fuel : Nat) (c : Chain) (ctx : Context)
    (doc elem : JSON) :
    find fuel c doc ≠ .error .notFound ∧
    find_iter fuel c doc ≠ .error .notFound ∧
    find_iter_ctx fuel c ctx elem ≠ .error .notFound := by
  have base : ∀ (c' : Chain) (ctx' : Context) (elem' : JSON),
      find_iter_ctx fuel c' ctx' elem' ≠ .error .notFound := by
    intro c' ctx' elem'
    rw [find_iter_ctx]
    exact dfs_find_ne_notFound fuel c' (isChained c') _ [elem']
  exact ⟨base c emptyCtx doc, base c emptyCtx doc, base c ctx elem⟩

/-- Witness for C1: a concrete evaluation (a name miss, which raises
`NotFound` internally) surfaces as a non-`NotFound` result. -/
theorem find_never_raises_notFound_witness :
    find 10 (Chain.cons .root (.last (.name (some "a")))) (.obj [("b", JSON.int 1)])
      ≠ .error .notFound :=
  (find_never_raises_notFound 10 (Chain.cons .root (.last (.name (some "a"))))
    emptyCtx (.obj [("b", JSON.int 1)]) (.int 0)).1

/-- C2: `find_first(E, D)` returns exactly the first element of the sequence
`find(E, D)` when that sequence is non-empty, and raises
`FindError::NotFound` when that sequence is empty. -/
theorem find_first_is_head_of_find (fuel : Nat) (c : Chain) (doc : JSON) :
    (find fuel c doc = .ok [] → find_first fuel c doc = .error .notFound) ∧
    (∀ (x : JSON) (rest : List JSON), find fuel c doc = .ok (x :: rest) →
      find_first fuel c doc = .ok x) := by
  constructor
  · intro h
    unfold find at h
    unfold find_first
    rw [h]
  · intro x rest h
    unfold find at h
    unfold find_first
    rw [h]

/-- Witness for C2 at concrete inputs: an empty result sequence raises
`NotFound` from `find_first`, a non-empty one yields its head. -/
theorem find_first_is_head_of_find_witness :
    find_first 10 (Chain.cons .root (.last (.name (some "a"))))
      (.obj [("b", JSON.int 1)]) = .error .notFound ∧
    find_first 10 (Chain.last .root) (.int 7) = .ok (.int 7) := by
  constructor
  · exact (find_first_is_head_of_find 10 (Chain.cons .root (.last (.name (some "a"))))
      (.obj [("b", JSON.int 1)])).1
      (by simp [find, find_iter_ctx, dfs_find, wrapped_find, actual_find,
        emptyCtx, isChained, chainHead, dictLookup])
  · exact (find_first_is_head_of_find 10 (Chain.last .root) (.int 7)).2
      (.int 7) []
      (by simp [find, find_iter_ctx, dfs_find, wrapped_find, actual_find,
        emptyCtx, isChained, chainHead])

/-- C9: for three freshly constructed nodes `a`, `b`, `c`, after
`a.chain(b).chain(c)` (each `chain` returning its argument), every node
reports begin `a`, the successor links are `a → b → c → none`, and each
chained node records its predecessor in `left`; `a` installed itself as its
own begin when it was first chained. -/
theorem chain_builds_linear_chain (s0 : LinkStore) (a b c : Nat) (s : LinkStore)
    (ha : s0 a = freshLinks) (hb : s0 b = freshLinks) (hc : s0 c = freshLinks)
    (hab : a ≠ b) (hac : a ≠ c) (hbc : b ≠ c)
    (hs : s = (chain (chain s0 a b).1 (chain s0 a b).2 c).1) :
    (chain s0 a b).2 = b ∧
    (chain (chain s0 a b).1 b c).2 = c ∧
    get_begin s a = a ∧ get_begin s b = a ∧ get_begin s c = a ∧
    get_next s a = some b ∧ get_next s b = some c ∧
    get_next s c = Option.none ∧
    (s b).left = some a ∧ (s c).left = some b := by
  subst hs
  refine ⟨rfl, rfl, ?_, ?_, ?_, ?_, ?_, ?_, ?_, ?_⟩ <;>
    simp [chain, setLinks, get_begin, get_next, freshLinks, ha, hb, hc,
      hab, hac, hbc, Ne.symm hab, Ne.symm hac, Ne.symm hbc]

/-- Witness for C9 with node ids 0, 1, 2 in an all-fresh store. -/
theorem chain_builds_linear_chain_witness :
    get_begin ((chain (chain (fun _ => freshLinks) 0 1).1 1 2).1) 0 = 0 ∧
    get_begin ((chain (chain (fun _ => freshLinks) 0 1).1 1 2).1) 1 = 0 ∧
    get_begin ((chain (chain (fun _ => freshLinks) 0 1).1 1 2).1) 2 = 0 ∧
    get_next ((chain (chain (fun _ => freshLinks) 0 1).1 1 2).1) 0 = some 1 ∧
    get_next ((chain (chain (fun _ => freshLinks) 0 1).1 1 2).1) 1 = some 2 ∧
    get_next ((chain (chain (fun _ => freshLinks) 0 1).1 1 2).1) 2 = Option.none := by
  have h := chain_builds_linear_chain (fun _ => freshLinks) 0 1 2
    ((chain (chain (fun _ => freshLinks) 0 1).1 (chain (fun _ => freshLinks) 0 1).2 2).1)
    rfl rfl rfl (by decide) (by decide) (by decide) rfl
  exact ⟨h.2.2.1, h.2.2.2.1, h.2.2.2.2.1, h.2.2.2.2.2.1, h.2.2.2.2.2.2.1,
    h.2.2.2.2.2.2.2.1⟩

/-! ### C3: And / Or short-circuit -/

/-- C3 fails on the code: `And.find` is `[element and self.get_target_value()]`,
and the host `and` short-circuits.  With the falsy left operand `0` the
match returns `[0]` without evaluating the expression target at all, even
though resolving that target would raise `NotFound` (its nested find on the
bound self value yields no result), where the claim demands `NotFound` be
raised regardless of the left operand's truthiness. -/
theorem and_skips_target_on_falsy_left :
    actual_find 5 (.compare .and (.expr (.last (.name (some "a")))))
      ⟨some (.obj []), Option.none, some (.key "k", .obj [])⟩ (.int 0)
      = .ok [.int 0] ∧
    get_target_value 4 (.expr (.last (.name (some "a"))))
      ⟨some (.obj []), Option.none, some (.key "k", .obj [])⟩
      = .error .notFound := by
  constructor <;>
    simp [actual_find, get_target_value, find_iter_ctx, dfs_find,
      wrapped_find, truthy, isChained, chainHead, dictLookup]

/-- C3 (amended): `And`/`Or` short-circuit exactly like the host's
`and`/`or` operators: `And` evaluates its target only when the left operand
is truthy, `Or` only when it is falsy; when the right-hand target is an
Expression and is evaluated, its nested find is performed (and an empty
result raises `NotFound`); the match returns the singleton
`[left AND|OR right]` whose value is the chosen operand itself under JSON
truthiness, not a bool. -/
theorem and_or_short_circuit (fuel : Nat) (t : Target) (ctx : Context)
    (elem : JSON) :
    (truthy elem = false →
      actual_find (fuel + 1) (.compare .and t) ctx elem = .ok [elem]) ∧
    (truthy elem = true →
      actual_find (fuel + 1) (.compare .and t) ctx elem
        = (get_target_value fuel t ctx).map (fun tv => [tv])) ∧
    (truthy elem = true →
      actual_find (fuel + 1) (.compare .or t) ctx elem = .ok [elem]) ∧
    (truthy elem = false →
      actual_find (fuel + 1) (.compare .or t) ctx elem
        = (get_target_value fuel t ctx).map (fun tv => [tv])) ∧
    (∀ (c : Chain) (k : SelfKey) (v : JSON), ctx.selfVal = some (k, v) →
      find_iter_ctx fuel c ctx v = .ok [] →
      get_target_value fuel (.expr c) ctx = .error .notFound) := by
  refine ⟨?_, ?_, ?_, ?_, ?_⟩
  · intro h
    cases hg : get_target_value fuel t ctx <;>
      simp [actual_find, h, hg]
  · intro h
    cases hg : get_target_value fuel t ctx <;>
      simp [actual_find, h, hg, Except.map]
  · intro h
    cases hg : get_target_value fuel t ctx <;>
      simp [actual_find, h, hg]
  · intro h
    cases hg : get_target_value fuel t ctx <;>
      simp [actual_find, h, hg, Except.map]
  · intro c k v hself hfind
    simp [get_target_value, hself, hfind]

/-- Witness for C3 (amended) at concrete operands: `0 and …` yields `0`
without touching the target, `2 and 3` yields the target `3` itself,
`2 or 3` yields `2`. -/
theorem and_or_short_circuit_witness :
    actual_find 6 (.compare .and (.lit (.int 3))) emptyCtx (.int 0)
      = .ok [.int 0] ∧
    actual_find 6 (.compare .and (.lit (.int 3))) emptyCtx (.int 2)
      = .ok [.int 3] ∧
    actual_find 6 (.compare .or (.lit (.int 3))) emptyCtx (.int 2)
      = .ok [.int 2] := by
  refine ⟨(and_or_short_circuit 5 (.lit (.int 3)) emptyCtx (.int 0)).1
      (by simp [truthy]), ?_,
    (and_or_short_circuit 5 (.lit (.int 3)) emptyCtx (.int 2)).2.2.1
      (by simp [truthy])⟩
  have h := (and_or_short_circuit 5 (.lit (.int 3)) emptyCtx (.int 2)).2.1
    (by simp [truthy])
  rw [h]
  simp [get_target_value, Except.map]

/-! ### C7: Array(int) out-of-range behaviour -/

/-- C7 fails on the code: on an array with an out-of-range index, the local
match does not return `[]` — `with suppress(IndexError)` swallows the
indexing error and control falls through to `raise JSONPathFindError`. -/
theorem array_out_of_range_raises_notFound :
    actual_find 5 (.array (.idx 5)) emptyCtx (.arr [.int 1, .int 2])
      = .error .notFound ∧
    actual_find 5 (.array (.idx 5)) emptyCtx (.arr [.int 1, .int 2])
      ≠ .ok [] := by
  constructor <;> simp [actual_find, pyIndex]

/-- C7 (amended): `Array(int i)` on an array returns `[elem[i]]` for a
valid index (negative indexing supported as in slicing), raises
`FindError::NotFound` for an out-of-range index, and raises
`FindError::NotFound` on a non-array element; an out-of-range miss inside a
chain is then caught by the driver, so an outer find surfaces `[]`. -/
theorem array_index_match (fuel : Nat) (i : Int) (xs : List JSON)
    (ctx : Context) (elem : JSON) :
    (∀ v, pyIndex xs i = some v →
      actual_find (fuel + 1) (.array (.idx i)) ctx (.arr xs) = .ok [v]) ∧
    (pyIndex xs i = Option.none →
      actual_find (fuel + 1) (.array (.idx i)) ctx (.arr xs)
        = .error .notFound) ∧
    (isArrVal elem = false →
      actual_find (fuel + 1) (.array (.idx i)) ctx elem
        = .error .notFound) ∧
    (pyIndex xs i = Option.none →
      find (fuel + 2) (.cons .root (.last (.array (.idx i)))) (.arr xs)
        = .ok []) := by
  refine ⟨?_, ?_, ?_, ?_⟩
  · intro v h; simp [actual_find, h]
  · intro h; simp [actual_find, h]
  · intro h; cases elem <;> simp_all [actual_find, isArrVal]
  · intro h
    have h2 : fuel + 2 ≠ 0 := by omega
    have h1 : fuel + 1 ≠ 0 := by omega
    simp [find, find_iter_ctx, dfs_find, wrapped_find, actual_find,
      emptyCtx, isChained, chainHead, h, h1, h2]

/-- Witness for C7 (amended): index 1 of `[1, 2]` hits, index 5 misses with
`NotFound`, a non-array raises `NotFound`, and the chained miss surfaces as
`[]` from `find`. -/
theorem array_index_match_witness :
    actual_find 6 (.array (.idx 1)) emptyCtx (.arr [.int 1, .int 2])
      = .ok [.int 2] ∧
    actual_find 6 (.array (.idx 5)) emptyCtx (.arr [.int 1, .int 2])
      = .error .notFound ∧
    actual_find 6 (.array (.idx 5)) emptyCtx (.int 3) = .error .notFound ∧
    find 7 (.cons .root (.last (.array (.idx 5)))) (.arr [.int 1, .int 2])
      = .ok [] := by
  have h := array_index_match 5 5 [.int 1, .int 2] emptyCtx (.int 3)
  refine ⟨(array_index_match 5 1 [.int 1, .int 2] emptyCtx (.int 3)).1
      (.int 2) (by simp [pyIndex]), ?_, ?_, ?_⟩
  · exact h.2.1 (by simp [pyIndex])
  · exact h.2.2.1 (by simp [isArrVal])
  · exact h.2.2.2 (by simp [pyIndex])

/-! ### C8: Contains -/

/-- C8 fails on the code: `Contains.find` runs `self._expr.find(element)`
*without* resetting the `finding` flag, so the inner expression is not
evaluated as a nested find.  With the unchained inner `Name("a")` on the
element `{}`, a nested find would return `[]` (so, per the claim, the match
would return `[]`), but the actual local match propagates the inner node's
`NotFound` out of `Contains`. -/
theorem contains_inner_is_not_nested :
    actual_find 10 (.contains (.last (.name (some "a"))) (.lit (.str "x")))
      emptyCtx (.obj []) = .error .notFound ∧
    find_iter_ctx 9 (.last (.name (some "a"))) emptyCtx (.obj []) = .ok [] := by
  constructor <;>
    simp [actual_find, find_iter_ctx, dfs_find, wrapped_find, emptyCtx,
      isChained, chainHead, lastNode, dictLookup]

/-- C8 (amended): `Contains.find` evaluates `inner.find(elem)` under the
prevailing outer finding discipline (the `finding` flag stays true): the
stored inner node's local match runs directly on `elem`, its `NotFound`
becoming `[]` when the node is chained and propagating out of the match
when it is unchained (any error propagates unchanged).  If that result is
empty the match returns `[]`; otherwise, with `container` its first result
and `needle` either the literal target or the first result of a nested find
of the target Expression against `elem` (empty ⇒ `[]`), it returns the
singleton `[needle ∈ container]` — membership being substring test for
strings, `==`-element test for arrays, and key test for objects. -/
theorem contains_match (fuel : Nat) (inner : Chain) (t : Target)
    (ctx : Context) (elem containerVal needle : JSON)
    (rest restT : List JSON) :
    (∀ e, wrapped_find fuel (lastNode inner) (isChained inner) ctx elem
        = .error e →
      actual_find (fuel + 1) (.contains inner t) ctx elem = .error e) ∧
    (wrapped_find fuel (lastNode inner) (isChained inner) ctx elem = .ok [] →
      actual_find (fuel + 1) (.contains inner t) ctx elem = .ok []) ∧
    (∀ v, wrapped_find fuel (lastNode inner) (isChained inner) ctx elem
        = .ok (containerVal :: rest) → t = .lit v →
      actual_find (fuel + 1) (.contains inner t) ctx elem
        = (pyContains containerVal v).map (fun b => [JSON.bool b])) ∧
    (∀ tc, t = .expr tc →
      wrapped_find fuel (lastNode inner) (isChained inner) ctx elem
        = .ok (containerVal :: rest) →
      find_iter_ctx fuel tc ctx elem = .ok [] →
      actual_find (fuel + 1) (.contains inner t) ctx elem = .ok []) ∧
    (∀ tc, t = .expr tc →
      wrapped_find fuel (lastNode inner) (isChained inner) ctx elem
        = .ok (containerVal :: rest) →
      find_iter_ctx fuel tc ctx elem = .ok (needle :: restT) →
      actual_find (fuel + 1) (.contains inner t) ctx elem
        = (pyContains containerVal needle).map (fun b => [JSON.bool b])) ∧
    (∀ s u : String, pyContains (.str s) (.str u) = .ok (strContains s u)) ∧
    (∀ (ys : List JSON) (w : JSON),
      pyContains (.arr ys) w = .ok (ys.any (fun x => pyEq x w))) ∧
    (∀ (kvs : List (String × JSON)) (u : String),
      pyContains (.obj kvs) (.str u)
        = .ok (kvs.any (fun kv => pyEq (.str kv.1) (.str u)))) := by
  refine ⟨?_, ?_, ?_, ?_, ?_, ?_, ?_, ?_⟩
  · intro e h; simp [actual_find, h]
  · intro h; simp [actual_find, h]
  · intro v h ht
    subst ht
    cases hp : pyContains containerVal v <;> simp [actual_find, h, hp, Except.map]
  · intro tc ht h hfind
    subst ht
    simp [actual_find, h, hfind]
  · intro tc ht h hfind
    subst ht
    cases hp : pyContains containerVal needle <;>
      simp [actual_find, h, hfind, hp, Except.map]
  · intro s u; simp [pyContains]
  · intro ys w; simp [pyContains]
  · intro kvs u; simp [pyContains]

/-- Witness for C8 (amended): `contains(@, "a")` on the current object
`{"a": 0}` — the inner `Self()` supplies the container and the key test
succeeds; and an unchained inner miss propagates `NotFound`. -/
theorem contains_match_witness :
    actual_find 6 (.contains (.last .self) (.lit (.str "a")))
      ⟨some (.obj []), Option.none, some (.idx 0, .obj [("a", .int 0)])⟩
      (.obj [("a", .int 0)]) = .ok [.bool true] ∧
    actual_find 6 (.contains (.last (.name (some "a"))) (.lit (.str "x")))
      ⟨some (.obj []), Option.none, Option.none⟩ (.obj [("b", .int 2)])
      = .error .notFound := by
  constructor
  · have h := (contains_match 5 (.last .self) (.lit (.str "a"))
      ⟨some (.obj []), Option.none, some (.idx 0, .obj [("a", .int 0)])⟩
      (.obj [("a", .int 0)]) (.obj [("a", .int 0)]) (.str "irrelevant") [] []).2.2.1
      (.str "a")
      (by simp [wrapped_find, actual_find, lastNode, isChained])
      rfl
    rw [h]
    simp [pyContains, pyEq, Except.map]
  · exact (contains_match 5 (.last (.name (some "a"))) (.lit (.str "x"))
      ⟨some (.obj []), Option.none, Option.none⟩ (.obj [("b", .int 2)])
      (.int 0) (.int 0) [] []).1 .notFound
      (by simp [wrapped_find, actual_find, lastNode, isChained, dictLookup])

/-! ### C5: Slice -/

/-- C5 fails on the code: a slice bound Expression whose first result is the
boolean `true` is accepted — `isinstance(True, int)` holds in the host — and
used as the integer 1, where the claim demands `NotFound` for any
non-integer first result.  The end-to-end find then slices from index 1
instead of surfacing an empty sequence. -/
theorem slice_bound_accepts_bool :
    ensure_int_or_none 8 (.expr (.last (.value (.bool true))))
      ⟨some (.arr [.int 10, .int 20, .int 30]),
       some (.arr [.int 10, .int 20, .int 30]), Option.none⟩
      = .ok (some 1) ∧
    ensure_int_or_none 8 (.expr (.last (.value (.bool true))))
      ⟨some (.arr [.int 10, .int 20, .int 30]),
       some (.arr [.int 10, .int 20, .int 30]), Option.none⟩
      ≠ .error .notFound ∧
    find 10 (.cons .root
        (.last (.array (.slice (.expr (.last (.value (.bool true)))) .none .none))))
      (.arr [.int 10, .int 20, .int 30]) = .ok [.int 20, .int 30] := by
  refine ⟨?_, ?_, ?_⟩ <;>
    (simp [find, find_iter_ctx, dfs_find, wrapped_find, actual_find,
      ensure_int_or_none, emptyCtx, isChained, chainHead, pyAsIndex,
      pySlice, pySliceIndices, sliceAdjust, pyIndex]
     try rfl)

/-- C5 (amended): slice bounds are resolved by `_ensure_int_or_none` — a
literal integer passes through, a missing bound stays `None`, an Expression
is evaluated by a nested find against `context.parent` and its first result
must pass the host's `isinstance(·, int)` (so a boolean also counts, as
0 / 1), else `NotFound` (also when the find is empty); then missing start ⇒
0, missing stop ⇒ `len(elem)`, missing step ⇒ 1, and the match returns
`elem[start:stop:step]` with Python list-slicing semantics including
negative-index normalisation. -/
theorem slice_match (fuel : Nat) (b1 b2 b3 : Bound) (c : Chain)
    (ctx : Context) (xs rv : List JSON) (p : JSON) (i : Int)
    (s e st : Option Int) :
    (ensure_int_or_none fuel (.lit i) ctx = .ok (some i)) ∧
    (ensure_int_or_none fuel .none ctx = .ok Option.none) ∧
    (ctx.parent = some p → find_iter_ctx fuel c ctx p = .ok rv →
      ensure_int_or_none fuel (.expr c) ctx
        = (match rv with
           | [] => .error .notFound
           | x :: _ =>
             match pyAsIndex x with
             | some j => .ok (some j)
             | Option.none => .error .notFound)) ∧
    (ensure_int_or_none fuel b1 ctx = .ok s →
     ensure_int_or_none fuel b2 ctx = .ok e →
     ensure_int_or_none fuel b3 ctx = .ok st →
      actual_find (fuel + 1) (.array (.slice b1 b2 b3)) ctx (.arr xs)
        = pySlice xs (s.getD 0) (e.getD (xs.length : Int)) (st.getD 1)) := by
  refine ⟨?_, ?_, ?_, ?_⟩
  · simp [ensure_int_or_none]
  · simp [ensure_int_or_none]
  · intro hp hfind
    cases rv <;> simp [ensure_int_or_none, hp, hfind]
  · intro h1 h2 h3
    simp [actual_find, h1, h2, h3]

/-- Witness for C5 (amended): `$[:3:2]` on `[1, 2, 3, 4]` — all bounds
literal or missing — selects `[1, 3]`. -/
theorem slice_match_witness :
    actual_find 6 (.array (.slice .none (.lit 3) (.lit 2))) emptyCtx
      (.arr [.int 1, .int 2, .int 3, .int 4]) = .ok [.int 1, .int 3] := by
  have h := (slice_match 5 .none (.lit 3) (.lit 2) (.last .root) emptyCtx
    [.int 1, .int 2, .int 3, .int 4] [] (.int 0) 0 Option.none (some 3)
    (some 2)).2.2.2
  rw [h (by simp [ensure_int_or_none]) (by simp [ensure_int_or_none])
    (by simp [ensure_int_or_none])]
  rfl

/-! ### C4: Predicate -/

/-- A successful run of the `Predicate.find` array loop is exactly an
order-preserving filter of the enumerated pairs by `keepTest`. -/
theorem predFilterArr_ok (fuel : Nat) (inner : Chain) (ctx : Context) :
    ∀ (xs : List JSON) (i : Nat) (out : List JSON),
      predFilterArr fuel inner ctx i xs = .ok out →
      out = (enumFrom i xs).filterMap
        (fun p => if keepTest fuel inner ctx (.idx p.1) p.2
          then some p.2 else Option.none) := by
  intro xs
  induction xs with
  | nil =>
    intro i out h
    rw [predFilterArr] at h
    simp only [Except.ok.injEq] at h
    simp [enumFrom, ← h]
  | cons v rest ih =>
    intro i out h
    rw [predFilterArr] at h
    cases hf : find_iter_ctx fuel inner
        { ctx with selfVal := some (.idx i, v) } v with
    | error e => rw [hf] at h; simp at h
    | ok rv =>
      rw [hf] at h
      cases hrest : predFilterArr fuel inner ctx (i + 1) rest with
      | error e => rw [hrest] at h; simp at h
      | ok more =>
        rw [hrest] at h
        simp only [Except.ok.injEq] at h
        subst h
        have ihh := ih (i + 1) more hrest
        have hk : keepTest fuel inner ctx (.idx i) v = headTruthy rv := by
          simp [keepTest, hf]
        cases hht : headTruthy rv <;>
          simp [enumFrom, List.filterMap_cons, hk, hht, ← ihh]

/-- A successful run of the `Predicate.find` dict loop is exactly an
order-preserving filter of the `(key, value)` pairs by `keepTest`. -/
theorem predFilterObj_ok (fuel : Nat) (inner : Chain) (ctx : Context) :
    ∀ (kvs : List (String × JSON)) (out : List JSON),
      predFilterObj fuel inner ctx kvs = .ok out →
      out = kvs.filterMap
        (fun kv => if keepTest fuel inner ctx (.key kv.1) kv.2
          then some kv.2 else Option.none) := by
  intro kvs
  induction kvs with
  | nil =>
    intro out h
    rw [predFilterObj] at h
    simp only [Except.ok.injEq] at h
    simp [← h]
  | cons kv rest ih =>
    intro out h
    obtain ⟨k, v⟩ := kv
    rw [predFilterObj] at h
    cases hf : find_iter_ctx fuel inner
        { ctx with selfVal := some (.key k, v) } v with
    | error e => rw [hf] at h; simp at h
    | ok rv =>
      rw [hf] at h
      cases hrest : predFilterObj fuel inner ctx rest with
      | error e => rw [hrest] at h; simp at h
      | ok more =>
        rw [hrest] at h
        simp only [Except.ok.injEq] at h
        subst h
        have ihh := ih more hrest
        have hk : keepTest fuel inner ctx (.key k) v = headTruthy rv := by
          simp [keepTest, hf]
        cases hht : headTruthy rv <;>
          simp [List.filterMap_cons, hk, hht, ← ihh]

/-- C4: `Predicate.find` iterates the `(index, item)` / `(key, value)` pairs
of an array / object in iteration order; for each pair it temporarily binds
`var_self` to the pair, evaluates the inner expression on the value as a
nested (non-outer) find, and appends the value exactly when the result list
is non-empty with a truthy first item (JSON truthiness); the returned list
preserves iteration order, and a non-array non-object element raises
`FindError::NotFound`. -/
theorem predicate_match (fuel : Nat) (inner : Chain) (ctx : Context) :
    (∀ elem, isArrVal elem = false → isObjVal elem = false →
      actual_find (fuel + 1) (.predicate inner) ctx elem
        = .error .notFound) ∧
    (∀ (xs out : List JSON),
      actual_find (fuel + 1) (.predicate inner) ctx (.arr xs) = .ok out →
      out = (enumFrom 0 xs).filterMap
        (fun p => if keepTest fuel inner ctx (.idx p.1) p.2
          then some p.2 else Option.none)) ∧
    (∀ (kvs : List (String × JSON)) (out : List JSON),
      actual_find (fuel + 1) (.predicate inner) ctx (.obj kvs) = .ok out →
      out = kvs.filterMap
        (fun kv => if keepTest fuel inner ctx (.key kv.1) kv.2
          then some kv.2 else Option.none)) := by
  refine ⟨?_, ?_, ?_⟩
  · intro elem h1 h2
    cases elem <;> simp_all [actual_find, isArrVal, isObjVal]
  · intro xs out h
    have he : actual_find (fuel + 1) (.predicate inner) ctx (.arr xs)
        = predFilterArr fuel inner ctx 0 xs := by simp [actual_find]
    exact predFilterArr_ok fuel inner ctx xs 0 out (he ▸ h)
  · intro kvs out h
    have he : actual_find (fuel + 1) (.predicate inner) ctx (.obj kvs)
        = predFilterObj fuel inner ctx kvs := by simp [actual_find]
    exact predFilterObj_ok fuel inner ctx kvs out (he ▸ h)

/-- Witness for C4: `$[a]`-style filtering — the predicate `Name("a")` keeps
exactly the items whose `"a"` field is truthy, in order. -/
theorem predicate_match_witness :
    [JSON.obj [("a", JSON.int 1)]]
      = (enumFrom 0 [JSON.obj [("a", JSON.int 0)], JSON.obj [("a", JSON.int 1)],
          JSON.obj []]).filterMap
          (fun p => if keepTest 19 (.last (.name (some "a"))) emptyCtx
              (.idx p.1) p.2
            then some p.2 else Option.none) := by
  exact (predicate_match 19 (.last (.name (some "a"))) emptyCtx).2.1
    [JSON.obj [("a", JSON.int 0)], JSON.obj [("a", JSON.int 1)], JSON.obj []]
    [JSON.obj [("a", JSON.int 1)]]
    (by simp [actual_find, predFilterArr, find_iter_ctx, dfs_find,
      wrapped_find, dictLookup, headTruthy, truthy, isChained, chainHead,
      emptyCtx])

/-! ### C6: Search -/

/-- C6: `Search.find` performs a pre-order recursive descent: the element is
visited first — the stored inner node's wrapped `find` under the outer
(chained) discipline, `NotFound` ignored — then, with `var_parent` bound to
the visited element, its children are traversed in order (array items,
object values); when the inner expression is a `Predicate` the initial
visit runs on the singleton array `[elem]` so the predicate's per-item
iteration starts at the current element itself. -/
theorem search_match (fuel : Nat) (inner c : Chain) (ctx : Context)
    (elem : JSON) (rv : List JSON) (e : FindErr) :
    (isPredicateNode (lastNode inner) = true →
      actual_find (fuel + 1) (.search inner) ctx elem
        = recursive_find fuel inner ctx (.arr [elem])) ∧
    (isPredicateNode (lastNode inner) = false →
      actual_find (fuel + 1) (.search inner) ctx elem
        = recursive_find fuel inner ctx elem) ∧
    (wrapped_find fuel (lastNode c) (isChained c) ctx elem = .ok rv →
      recursive_find fuel c ctx elem =
        (match elem with
         | .arr xs => (recursiveFindList fuel c { ctx with parent := some elem } xs).map
             (fun more => rv ++ more)
         | .obj kvs => (recursiveFindObj fuel c { ctx with parent := some elem } kvs).map
             (fun more => rv ++ more)
         | _ => .ok rv)) ∧
    (wrapped_find fuel (lastNode c) (isChained c) ctx elem
        = .error .notFound →
      recursive_find fuel c ctx elem =
        (match elem with
         | .arr xs => recursiveFindList fuel c { ctx with parent := some elem } xs
         | .obj kvs => recursiveFindObj fuel c { ctx with parent := some elem } kvs
         | _ => .ok [])) ∧
    (e ≠ .notFound →
      wrapped_find fuel (lastNode c) (isChained c) ctx elem = .error e →
      recursive_find fuel c ctx elem = .error e) ∧
    (∀ (x : JSON) (xsr : List JSON) (here : List JSON),
      recursive_find fuel c ctx x = .ok here →
      recursiveFindList (fuel + 1) c ctx (x :: xsr)
        = (recursiveFindList (fuel + 1) c ctx xsr).map
            (fun more => here ++ more)) ∧
    (∀ (k : String) (v : JSON) (kvr : List (String × JSON)) (here : List JSON),
      recursive_find fuel c ctx v = .ok here →
      recursiveFindObj (fuel + 1) c ctx ((k, v) :: kvr)
        = (recursiveFindObj (fuel + 1) c ctx kvr).map
            (fun more => here ++ more)) := by
  refine ⟨?_, ?_, ?_, ?_, ?_, ?_, ?_⟩
  · intro h; simp [actual_find, h]
  · intro h; simp [actual_find, h]
  · intro h
    rw [recursive_find]
    simp only [h]
    cases elem <;> simp [Except.map] <;>
      (first
        | (cases hr : recursiveFindList fuel c _ _ <;> simp [hr])
        | (cases hr : recursiveFindObj fuel c _ _ <;> simp [hr]))
  · intro h
    rw [recursive_find]
    simp only [h]
    cases elem <;> simp [Except.map] <;>
      (first
        | (cases hr : recursiveFindList fuel c _ _ <;> simp [hr])
        | (cases hr : recursiveFindObj fuel c _ _ <;> simp [hr]))
  · intro hne h
    rw [recursive_find]
    simp [h, hne]
  · intro x xsr here h
    rw [recursiveFindList]
    cases hr : recursiveFindList (fuel + 1) c ctx xsr <;>
      simp [h, hr, Except.map]
  · intro k v kvr here h
    rw [recursiveFindObj]
    cases hr : recursiveFindObj (fuel + 1) c ctx kvr <;>
      simp [h, hr, Except.map]

/-- Witness for C6: the predicate special case rewrites the initial visit to
the singleton wrapper; a `Name` inner visit on `{"a": 0}` contributes its
hit before the children are traversed. -/
theorem search_match_witness :
    actual_find 11 (.search (.last (.predicate (.last (.name (some "a"))))))
      emptyCtx (.int 1)
      = recursive_find 10 (.last (.predicate (.last (.name (some "a")))))
          emptyCtx (.arr [.int 1]) ∧
    recursive_find 10 (.last (.name (some "a"))) emptyCtx
      (.obj [("a", .int 0)])
      = (recursiveFindObj 10 (.last (.name (some "a")))
          { emptyCtx with parent := some (.obj [("a", .int 0)]) }
          [("a", .int 0)]).map (fun more => [JSON.int 0] ++ more) := by
  constructor
  · exact (search_match 10 (.last (.predicate (.last (.name (some "a")))))
      (.last .root) emptyCtx (.int 1) [] .notFound).1 rfl
  · exact (search_match 10 (.last .root) (.last (.name (some "a")))
      emptyCtx (.obj [("a", .int 0)]) [JSON.int 0] .notFound).2.2.1
      (by simp [wrapped_find, actual_find, lastNode, isChained, dictLookup])

/-! ### C10: unbound context variables -/

/-- C10: when a `Compare` node with an Expression target is evaluated while
`var_self` is unbound, or a `Slice` with an Expression bound is evaluated
while `var_parent` is unbound, `var_self.get()` / `var_parent.get()` raises
the host's `LookupError`, which is not `FindError::NotFound` and is not
caught anywhere: it escapes the public `find` / `find_first` (and hence
`find_iter`) uncaught instead of being converted to an empty sequence. -/
theorem unbound_context_lookup_escapes (fuel : Nat) (c : Chain)
    (ctx : Context) :
    (ctx.selfVal = Option.none →
      get_target_value fuel (.expr c) ctx = .error .lookupError) ∧
    (ctx.parent = Option.none →
      ensure_int_or_none fuel (.expr c) ctx = .error .lookupError) ∧
    find 10 (.cons .root (.last (.compare .equal (.expr (.last (.value (.int 1)))))))
      (.int 1) = .error .lookupError ∧
    find_first 10 (.cons .root (.last (.compare .equal (.expr (.last (.value (.int 1)))))))
      (.int 1) = .error .lookupError ∧
    find 10 (.last (.array (.slice (.expr (.last .root)) .none .none)))
      (.arr [.int 1]) = .error .lookupError ∧
    find_first 10 (.last (.array (.slice (.expr (.last .root)) .none .none)))
      (.arr [.int 1]) = .error .lookupError := by
  refine ⟨?_, ?_, ?_, ?_, ?_, ?_⟩
  · intro h; simp [get_target_value, h]
  · intro h; simp [ensure_int_or_none, h]
  all_goals
    simp [find, find_first, find_iter_ctx, dfs_find, wrapped_find,
      actual_find, get_target_value, ensure_int_or_none, emptyCtx,
      isChained, chainHead]

/-- Witness for C10: the two local lookup failures at the empty context. -/
theorem unbound_context_lookup_escapes_witness :
    get_target_value 5 (.expr (.last .root)) emptyCtx
      = .error .lookupError ∧
    ensure_int_or_none 5 (.expr (.last .root)) emptyCtx
      = .error .lookupError := by
  exact ⟨(unbound_context_lookup_escapes 5 (.last .root) emptyCtx).1 rfl,
    (unbound_context_lookup_escapes 5 (.last .root) emptyCtx).2.1 rfl⟩

end JsonPathCore
